import Mathlib

/-!
Shallow embedding of the RTCP packet codec (Goodbye and ReceiverReport) from
src/rtcp/src/goodbye/mod.rs and src/rtcp/src/receiver_report/receiver_report_def.rs.
Byte buffers are `List Nat` with each element a byte value; Rust panics
(out-of-bounds slice accesses) are modelled explicitly.
-/

namespace Rtcp

def HEADER_LENGTH : Nat := 4
def SSRC_LENGTH : Nat := 4
def COUNT_MAX : Nat := 31
def SDES_MAX_OCTET_COUNT : Nat := 255
def RECEPTION_REPORT_LENGTH : Nat := 24
def RR_SSRC_OFFSET : Nat := 4
def RR_REPORT_OFFSET : Nat := 8

/-- Modelled from the spec: the shared padding helper `get_padding` (the `crate::util`
module is not in the tree): the number of zero bytes needed so that `n + get_padding n`
is a multiple of 4, and 0 when `n` is already aligned. -/
def get_padding (n : Nat) : Nat := if n % 4 = 0 then 0 else 4 - n % 4

/-- Error kinds raised by the codec, one per distinct error value used in the source. -/
inductive RtcpError where
  | packetTooShort
  | wrongPacketType
  | invalidHeader
  | invalidText
  | tooManySources
  | tooManyReports
  | reasonTooLong
deriving DecidableEq

/-- Result of a marshal/unmarshal routine: a returned value, a returned error, or a
Rust panic caused by an out-of-bounds slice access. -/
inductive RRes (α : Type) where
  | ok (val : α)
  | err (e : RtcpError)
  | panic
deriving DecidableEq

/-- Big-endian u32 read of bytes `[offset, offset+4)`; `none` models the Rust panic of
`BigEndian::read_u32` when fewer than 4 bytes remain. -/
def readU32 (b : List Nat) (offset : Nat) : Option Nat :=
  if offset + 4 ≤ b.length then
    some (b.getD offset 0 * 2 ^ 24 + b.getD (offset + 1) 0 * 2 ^ 16 +
      b.getD (offset + 2) 0 * 2 ^ 8 + b.getD (offset + 3) 0)
  else none

/-- The four big-endian bytes of a u32 value. -/
def u32Bytes (v : Nat) : List Nat :=
  [v / 2 ^ 24 % 256, v / 2 ^ 16 % 256, v / 2 ^ 8 % 256, v % 256]

/-- The three big-endian bytes of a u24 value. -/
def u24Bytes (v : Nat) : List Nat :=
  [v / 2 ^ 16 % 256, v / 2 ^ 8 % 256, v % 256]

/-- Overwrite the bytes of `buf` at `[offset, offset + data.length)`; `none` models the
Rust panic when the slice range exceeds the buffer. -/
def writeBytes (buf : List Nat) (offset : Nat) (data : List Nat) : Option (List Nat) :=
  if offset + data.length ≤ buf.length then
    some (buf.take offset ++ data ++ buf.drop (offset + data.length))
  else none

/-- The source-identifier read loop of `Goodbye::unmarshal`: `n` consecutive big-endian
u32 reads starting at `offset`, each slot `SSRC_LENGTH` bytes further. -/
def readU32s (b : List Nat) (offset : Nat) : Nat → Option (List Nat)
  | 0 => some []
  | n + 1 =>
    match readU32 b offset with
    | none => none
    | some v =>
      match readU32s b (offset + SSRC_LENGTH) n with
      | none => none
      | some vs => some (v :: vs)

/-- The source-identifier write loop of `Goodbye::marshal`: consecutive big-endian u32
writes starting at `offset`. -/
def writeU32List (buf : List Nat) (offset : Nat) : List Nat → Option (List Nat)
  | [] => some buf
  | v :: vs =>
    match writeBytes buf offset (u32Bytes v) with
    | none => none
    | some buf2 => writeU32List buf2 (offset + SSRC_LENGTH) vs

structure Header where
  padding : Bool
  count : Nat
  packet_type : Nat
  length : Nat
deriving DecidableEq

def PT_RECEIVER_REPORT : Nat := 201
def PT_GOODBYE : Nat := 203

/-- Modelled from the spec: `Header::unmarshal` (the header module is not in the tree).
It reads the 4-byte prefix without consuming it: byte 0 holds the version (2 bits),
padding flag and 5-bit count; byte 1 the packet-type discriminant (kept here as its raw
byte); bytes 2-3 the big-endian length-in-32-bit-words-minus-one field. Fewer than 4
bytes fail with PacketTooShort. -/
def Header.unmarshal (b : List Nat) : Except RtcpError Header :=
  if 4 ≤ b.length then
    .ok { padding := decide (b.getD 0 0 / 32 % 2 = 1),
          count := b.getD 0 0 % 32,
          packet_type := b.getD 1 0,
          length := b.getD 2 0 * 256 + b.getD 3 0 }
  else .error .packetTooShort

/-- Modelled from the spec: `Header::marshal` — byte 0 carries version 2 in the top two
bits, then the padding flag and the 5-bit count; byte 1 the discriminant; bytes 2-3 the
big-endian length field. -/
def Header.marshal (h : Header) : List Nat :=
  [128 + (if h.padding then 32 else 0) + h.count % 32,
   h.packet_type % 256, h.length / 256 % 256, h.length % 256]

structure Goodbye where
  sources : List Nat
  reason : List Nat
deriving DecidableEq

/-- The `Default`-initialized Goodbye: no sources, empty reason. -/
def Goodbye.mkDefault : Goodbye := { sources := [], reason := [] }

/-- A UTF-8 continuation byte. -/
def utf8Cont (c : Nat) : Bool := decide (128 ≤ c ∧ c ≤ 191)

/-- UTF-8 validity of a byte sequence; models `String::from_utf8` succeeding in
`Goodbye::unmarshal` (a Rust `String` is exactly a valid-UTF-8 byte sequence). -/
def utf8Valid : List Nat → Bool
  | [] => true
  | b :: rest =>
    if b ≤ 127 then utf8Valid rest
    else if 194 ≤ b ∧ b ≤ 223 then
      match rest with
      | c1 :: r => utf8Cont c1 && utf8Valid r
      | [] => false
    else if b = 224 then
      match rest with
      | c1 :: c2 :: r => decide (160 ≤ c1 ∧ c1 ≤ 191) && utf8Cont c2 && utf8Valid r
      | _ => false
    else if (225 ≤ b ∧ b ≤ 236) ∨ b = 238 ∨ b = 239 then
      match rest with
      | c1 :: c2 :: r => utf8Cont c1 && utf8Cont c2 && utf8Valid r
      | _ => false
    else if b = 237 then
      match rest with
      | c1 :: c2 :: r => decide (128 ≤ c1 ∧ c1 ≤ 159) && utf8Cont c2 && utf8Valid r
      | _ => false
    else if b = 240 then
      match rest with
      | c1 :: c2 :: c3 :: r =>
        decide (144 ≤ c1 ∧ c1 ≤ 191) && utf8Cont c2 && utf8Cont c3 && utf8Valid r
      | _ => false
    else if 241 ≤ b ∧ b ≤ 243 then
      match rest with
      | c1 :: c2 :: c3 :: r => utf8Cont c1 && utf8Cont c2 && utf8Cont c3 && utf8Valid r
      | _ => false
    else if b = 244 then
      match rest with
      | c1 :: c2 :: c3 :: r =>
        decide (128 ≤ c1 ∧ c1 ≤ 143) && utf8Cont c2 && utf8Cont c3 && utf8Valid r
      | _ => false
    else false

/-- `Goodbye::len`: header + 4 bytes per source + reason length byte + reason, rounded
up to a 32-bit boundary. -/
def Goodbye.len (g : Goodbye) : Nat :=
  let srcs_length := g.sources.length * SSRC_LENGTH
  let reason_length := g.reason.length + 1
  let l := HEADER_LENGTH + srcs_length + reason_length
  l + get_padding l

/-- `Goodbye::header`: count is the source count (`as u8`), length the padded total in
32-bit words minus one (`as u16`). -/
def Goodbye.header (g : Goodbye) : Header :=
  { padding := false,
    count := g.sources.length % 256,
    packet_type := PT_GOODBYE,
    length := (g.len / 4 - 1) % 65536 }

/-- The reason block of `Goodbye::marshal`: when the reason is non-empty, check its
length, then write the length byte and the reason bytes after the sources. -/
def Goodbye.writeReason (g : Goodbye) (raw1 : List Nat) : RRes (List Nat) :=
  if g.reason ≠ [] then
    if g.reason.length > SDES_MAX_OCTET_COUNT then .err .reasonTooLong
    else
      let reason_offset := HEADER_LENGTH + g.sources.length * SSRC_LENGTH
      match writeBytes raw1 reason_offset [g.reason.length % 256] with
      | none => .panic
      | some raw2 =>
        match writeBytes raw2 (reason_offset + 1) g.reason with
        | none => .panic
        | some raw3 => .ok raw3
  else .ok raw1

/-- The final step of both marshal routines: copy the 4 header bytes into the front. -/
def writeHeaderInto (h : Header) (raw : List Nat) : RRes (List Nat) :=
  match writeBytes raw 0 (Header.marshal h) with
  | none => .panic
  | some out => .ok out

/-- `Goodbye::marshal`, step for step: the count check, allocation of a zeroed buffer of
`Goodbye::len` bytes, the (duplicated) count check, the source write loop, the reason
block, and the header write. -/
def Goodbye.marshal (g : Goodbye) : RRes (List Nat) :=
  if g.sources.length > COUNT_MAX then .err .tooManySources
  else
    match writeU32List (List.replicate g.len 0) HEADER_LENGTH g.sources with
    | none => .panic
    | some raw1 =>
      if g.sources.length > COUNT_MAX then .err .tooManySources
      else
        match g.writeReason raw1 with
        | .ok raw => writeHeaderInto g.header raw
        | .err e => .err e
        | .panic => .panic

/-- `Goodbye::unmarshal`, step for step: header parse (non-consuming), packet-type
check, whole-buffer 32-bit-alignment check, source-region bounds check, source reads,
then the optional reason region. Fields not assigned on a path keep `init`'s values. -/
def Goodbye.unmarshal (init : Goodbye) (b : List Nat) : RRes Goodbye :=
  match Header.unmarshal b with
  | .error e => .err e
  | .ok h =>
    if h.packet_type ≠ PT_GOODBYE then .err .wrongPacketType
    else if get_padding b.length ≠ 0 then .err .packetTooShort
    else
      let reason_offset := HEADER_LENGTH + h.count * SSRC_LENGTH
      if reason_offset > b.length then .err .packetTooShort
      else
        match readU32s b HEADER_LENGTH h.count with
        | none => .panic
        | some srcs =>
          if reason_offset < b.length then
            let reason_len := b.getD reason_offset 0
            let reason_end := reason_offset + 1 + reason_len
            if reason_end > b.length then .err .packetTooShort
            else
              let rbytes := (b.drop (reason_offset + 1)).take reason_len
              if utf8Valid rbytes then .ok { sources := srcs, reason := rbytes }
              else .err .invalidText
          else .ok { sources := srcs, reason := init.reason }

structure ReceptionReport where
  ssrc : Nat
  fraction_lost : Nat
  total_lost : Nat
  last_sequence_number : Nat
  jitter : Nat
  last_sr : Nat
  delay_since_last_sr : Nat
deriving DecidableEq

/-- `ReceptionReport::size`: the fixed 24-byte wire width. -/
def ReceptionReport.size (_ : ReceptionReport) : Nat := RECEPTION_REPORT_LENGTH

/-- Modelled from the spec: `ReceptionReport::marshal` (the reception_report module is
not in the tree) — the fixed 24-byte record ssrc(4) fraction_lost(1) total_lost(3)
last_sequence_number(4) jitter(4) last_sr(4) delay_since_last_sr(4), big-endian. -/
def ReceptionReport.marshal (r : ReceptionReport) : List Nat :=
  u32Bytes r.ssrc ++ [r.fraction_lost % 256] ++ u24Bytes r.total_lost ++
  u32Bytes r.last_sequence_number ++ u32Bytes r.jitter ++ u32Bytes r.last_sr ++
  u32Bytes r.delay_since_last_sr

/-- Modelled from the spec: `ReceptionReport::unmarshal` — reads the fixed 24-byte
record from the front of the slice, failing with PacketTooShort when fewer than 24
bytes remain. -/
def ReceptionReport.unmarshal (b : List Nat) : Except RtcpError ReceptionReport :=
  if b.length < RECEPTION_REPORT_LENGTH then .error .packetTooShort
  else .ok {
    ssrc := b.getD 0 0 * 2 ^ 24 + b.getD 1 0 * 2 ^ 16 + b.getD 2 0 * 2 ^ 8 + b.getD 3 0,
    fraction_lost := b.getD 4 0,
    total_lost := b.getD 5 0 * 2 ^ 16 + b.getD 6 0 * 2 ^ 8 + b.getD 7 0,
    last_sequence_number :=
      b.getD 8 0 * 2 ^ 24 + b.getD 9 0 * 2 ^ 16 + b.getD 10 0 * 2 ^ 8 + b.getD 11 0,
    jitter := b.getD 12 0 * 2 ^ 24 + b.getD 13 0 * 2 ^ 16 + b.getD 14 0 * 2 ^ 8 + b.getD 15 0,
    last_sr := b.getD 16 0 * 2 ^ 24 + b.getD 17 0 * 2 ^ 16 + b.getD 18 0 * 2 ^ 8 + b.getD 19 0,
    delay_since_last_sr :=
      b.getD 20 0 * 2 ^ 24 + b.getD 21 0 * 2 ^ 16 + b.getD 22 0 * 2 ^ 8 + b.getD 23 0 }

structure ReceiverReport where
  ssrc : Nat
  reports : List ReceptionReport
  profile_extensions : List Nat
deriving DecidableEq

/-- The `Default`-initialized ReceiverReport. -/
def ReceiverReport.mkDefault : ReceiverReport :=
  { ssrc := 0, reports := [], profile_extensions := [] }

/-- `ReceiverReport::len`: header + reporter SSRC + the summed report sizes + the
(unpadded) profile extensions length. -/
def ReceiverReport.len (r : ReceiverReport) : Nat :=
  let reps_length := r.reports.foldl (fun acc rep => acc + rep.size) 0
  HEADER_LENGTH + SSRC_LENGTH + reps_length + r.profile_extensions.length

/-- `ReceiverReport::header`: count is the report count (`as u8`), length the padded
`ReceiverReport::len` in 32-bit words minus one (`as u16`). -/
def ReceiverReport.header (r : ReceiverReport) : Header :=
  let l := r.len + get_padding r.len
  { padding := false,
    count := r.reports.length % 256,
    packet_type := PT_RECEIVER_REPORT,
    length := (l / 4 - 1) % 65536 }

/-- The report write loop of `ReceiverReport::marshal`: block `i` goes to body offset
`SSRC_LENGTH + RECEPTION_REPORT_LENGTH * i` (absolute offset adds `HEADER_LENGTH`). -/
def writeReports (buf : List Nat) (i : Nat) : List ReceptionReport → Option (List Nat)
  | [] => some buf
  | rp :: rest =>
    match writeBytes buf (HEADER_LENGTH + (SSRC_LENGTH + RECEPTION_REPORT_LENGTH * i))
        rp.marshal with
    | none => none
    | some buf2 => writeReports buf2 (i + 1) rest

/-- The while loop of `ReceiverReport::marshal` that pushes zero bytes until the
extension tail's length is a multiple of 4. -/
def padTo4 (pe : List Nat) : List Nat := pe ++ List.replicate (get_padding pe.length) 0

/-- `ReceiverReport::marshal`, step for step: allocation of a zeroed buffer of
`ReceiverReport::len` bytes, the SSRC write, the report write loop, the count check,
then `raw_packet.append` of the zero-padded extensions copy, and the header write. -/
def ReceiverReport.marshal (r : ReceiverReport) : RRes (List Nat) :=
  match writeBytes (List.replicate r.len 0) HEADER_LENGTH (u32Bytes r.ssrc) with
  | none => .panic
  | some raw1 =>
    match writeReports raw1 0 r.reports with
    | none => .panic
    | some raw2 =>
      if r.reports.length > COUNT_MAX then .err .tooManyReports
      else writeHeaderInto r.header (raw2 ++ padTo4 r.profile_extensions)

/-- The report read loop of `ReceiverReport::unmarshal`: starting at offset `i`, read
fixed-size blocks while bytes remain and fewer than `remaining` blocks were read. -/
def rrReadReports (b : List Nat) : Nat → Nat → Except RtcpError (List ReceptionReport)
  | _, 0 => .ok []
  | i, remaining + 1 =>
    if i < b.length then
      match ReceptionReport.unmarshal (b.drop i) with
      | .error e => .error e
      | .ok rr =>
        match rrReadReports b (i + RECEPTION_REPORT_LENGTH) remaining with
        | .error e => .error e
        | .ok rest => .ok (rr :: rest)
    else .ok []

/-- `ReceiverReport::unmarshal`, step for step: minimum-length check, header parse
(non-consuming), packet-type check, SSRC read, the report read loop (bounded by the
header count, appending to `init`'s reports), the everything-after-the-reports
extension slice, and finally the parsed-count-versus-header-count check. -/
def ReceiverReport.unmarshal (init : ReceiverReport) (b : List Nat) : RRes ReceiverReport :=
  if b.length < HEADER_LENGTH + SSRC_LENGTH then .err .packetTooShort
  else
    match Header.unmarshal b with
    | .error e => .err e
    | .ok h =>
      if h.packet_type ≠ PT_RECEIVER_REPORT then .err .wrongPacketType
      else
        match readU32 b RR_SSRC_OFFSET with
        | none => .panic
        | some ssrcVal =>
          match rrReadReports b RR_REPORT_OFFSET (h.count - init.reports.length) with
          | .error e => .err e
          | .ok parsed =>
            let reports := init.reports ++ parsed
            let extStart := RR_REPORT_OFFSET + reports.length * RECEPTION_REPORT_LENGTH
            if extStart ≤ b.length then
              if reports.length ≠ h.count then .err .invalidHeader
              else .ok { ssrc := ssrcVal, reports := reports,
                         profile_extensions := b.drop extStart }
            else .panic

/-- The concatenated big-endian encodings of a u32 list. -/
def u32sBytes : List Nat → List Nat
  | [] => []
  | v :: vs => u32Bytes v ++ u32sBytes vs

/-- The concatenated encodings of a report list. -/
def reportsBytes : List ReceptionReport → List Nat
  | [] => []
  | rp :: rest => rp.marshal ++ reportsBytes rest

/-- Closed form of the buffer produced by `Goodbye::marshal`. -/
def goodbyeBytes (g : Goodbye) : List Nat :=
  Header.marshal g.header ++ u32sBytes g.sources ++ [g.reason.length % 256] ++ g.reason ++
    List.replicate
      (get_padding (HEADER_LENGTH + g.sources.length * SSRC_LENGTH + (g.reason.length + 1))) 0

/-- Closed form of the buffer produced by `ReceiverReport::marshal`: note the
`profile_extensions.length` zero bytes left over from the allocation, before the
appended padded extensions copy. -/
def rrBytes (r : ReceiverReport) : List Nat :=
  Header.marshal r.header ++ u32Bytes r.ssrc ++ reportsBytes r.reports ++
    List.replicate r.profile_extensions.length 0 ++ r.profile_extensions ++
    List.replicate (get_padding r.profile_extensions.length) 0

/-! ### Arithmetic and length lemmas -/

lemma get_padding_le (n : Nat) : get_padding n ≤ 3 := by
  unfold get_padding; split <;> omega

lemma get_padding_total_mod (n : Nat) : (n + get_padding n) % 4 = 0 := by
  unfold get_padding; split <;> omega

lemma get_padding_eq_zero (n : Nat) (h : n % 4 = 0) : get_padding n = 0 := by
  unfold get_padding; split <;> omega

lemma get_padding_ne_zero (n : Nat) (h : n % 4 ≠ 0) : get_padding n ≠ 0 := by
  unfold get_padding; split <;> omega

lemma u32Bytes_length (v : Nat) : (u32Bytes v).length = 4 := rfl

lemma headerMarshal_length (h : Header) : (Header.marshal h).length = 4 := rfl

lemma u32sBytes_length (vs : List Nat) : (u32sBytes vs).length = 4 * vs.length := by
  induction vs with
  | nil => rfl
  | cons v vs ih => simp [u32sBytes, u32Bytes, ih]; omega

lemma repMarshal_length (r : ReceptionReport) : r.marshal.length = 24 := rfl

lemma reportsBytes_length (l : List ReceptionReport) :
    (reportsBytes l).length = 24 * l.length := by
  induction l with
  | nil => rfl
  | cons rp rest ih => simp [reportsBytes, repMarshal_length, ih]; omega

lemma goodbye_len_eq (g : Goodbye) :
    g.len = HEADER_LENGTH + g.sources.length * SSRC_LENGTH + (g.reason.length + 1) +
      get_padding (HEADER_LENGTH + g.sources.length * SSRC_LENGTH + (g.reason.length + 1)) := rfl

lemma goodbyeBytes_length (g : Goodbye) : (goodbyeBytes g).length = g.len := by
  simp [goodbyeBytes, goodbye_len_eq, headerMarshal_length, u32sBytes_length,
    HEADER_LENGTH, SSRC_LENGTH]
  omega

lemma reps_foldl (l : List ReceptionReport) (a : Nat) :
    l.foldl (fun acc rep => acc + rep.size) a = a + 24 * l.length := by
  induction l generalizing a with
  | nil => simp
  | cons rp rest ih =>
    rw [List.foldl_cons, ih]
    simp only [ReceptionReport.size, RECEPTION_REPORT_LENGTH, List.length_cons]
    omega

lemma rr_len_eq (r : ReceiverReport) :
    r.len = 8 + 24 * r.reports.length + r.profile_extensions.length := by
  simp only [ReceiverReport.len, reps_foldl, HEADER_LENGTH, SSRC_LENGTH]
  omega

lemma rrBytes_length (r : ReceiverReport) :
    (rrBytes r).length = 8 + 24 * r.reports.length + 2 * r.profile_extensions.length +
      get_padding r.profile_extensions.length := by
  simp [rrBytes, headerMarshal_length, u32Bytes_length, reportsBytes_length]
  omega

/-! ### Byte access lemmas -/

lemma getD_take (b : List Nat) (p i : Nat) (h : i < p) :
    (b.take p).getD i 0 = b.getD i 0 := by
  simp [List.getD_eq_getElem?_getD, List.getElem?_take, h]

lemma getD_append_off (A B : List Nat) (i j : Nat) (h : i = A.length + j) :
    (A ++ B).getD i 0 = B.getD j 0 := by
  subst h
  rw [List.getD_append_right A B 0 (A.length + j) (by omega)]
  congr 1
  omega

lemma getD_append_in (A B : List Nat) (i : Nat) (h : i < A.length) :
    (A ++ B).getD i 0 = A.getD i 0 :=
  List.getD_append A B 0 i h

/-! ### Write primitive lemmas -/

lemma writeBytes_eq (A B C D : List Nat) (o : Nat) (ho : o = A.length)
    (hBD : B.length = D.length) :
    writeBytes (A ++ (B ++ C)) o D = some (A ++ (D ++ C)) := by
  subst ho
  have hlen : A.length + D.length ≤ (A ++ (B ++ C)).length := by
    simp [List.length_append]; omega
  have htake : (A ++ (B ++ C)).take A.length = A := List.take_left A (B ++ C)
  have hdrop : (A ++ (B ++ C)).drop (A.length + D.length) = C := by
    rw [← List.append_assoc]
    exact List.drop_left' (by simp [List.length_append, hBD])
  unfold writeBytes
  rw [if_pos hlen, htake, hdrop]
  simp

lemma writeU32List_eq (vs : List Nat) : ∀ (A B C : List Nat) (o : Nat), o = A.length →
    B.length = 4 * vs.length →
    writeU32List (A ++ (B ++ C)) o vs = some (A ++ (u32sBytes vs ++ C)) := by
  induction vs with
  | nil =>
    intro A B C o ho hB
    simp only [List.length_nil, Nat.mul_zero] at hB
    have : B = [] := List.eq_nil_of_length_eq_zero hB
    subst this
    simp [writeU32List, u32sBytes]
  | cons v vs ih =>
    intro A B C o ho hB
    simp only [List.length_cons] at hB
    have hsplit : B = B.take 4 ++ B.drop 4 := (List.take_append_drop 4 B).symm
    have h1 : (B.take 4).length = 4 := by simp [List.length_take]; omega
    have h2 : (B.drop 4).length = 4 * vs.length := by
      simp [List.length_drop]; omega
    rw [hsplit, List.append_assoc]
    have hw := writeBytes_eq A (B.take 4) (B.drop 4 ++ C) (u32Bytes v) o ho
      (by rw [h1, u32Bytes_length])
    simp only [writeU32List, hw]
    have hstep : writeU32List (A ++ (u32Bytes v ++ (B.drop 4 ++ C))) (o + SSRC_LENGTH) vs =
        some ((A ++ u32Bytes v) ++ (u32sBytes vs ++ C)) := by
      rw [← List.append_assoc]
      exact ih (A ++ u32Bytes v) (B.drop 4) C (o + SSRC_LENGTH)
        (by simp [List.length_append, u32Bytes_length, ho, SSRC_LENGTH]) h2
    rw [hstep]
    simp [u32sBytes, List.append_assoc]

lemma writeReports_eq (rps : List ReceptionReport) :
    ∀ (i : Nat) (A B C : List Nat), A.length = 8 + 24 * i → B.length = 24 * rps.length →
    writeReports (A ++ (B ++ C)) i rps = some (A ++ (reportsBytes rps ++ C)) := by
  induction rps with
  | nil =>
    intro i A B C hA hB
    simp only [List.length_nil, Nat.mul_zero] at hB
    have : B = [] := List.eq_nil_of_length_eq_zero hB
    subst this
    simp [writeReports, reportsBytes]
  | cons rp rest ih =>
    intro i A B C hA hB
    simp only [List.length_cons] at hB
    have hsplit : B = B.take 24 ++ B.drop 24 := (List.take_append_drop 24 B).symm
    have h1 : (B.take 24).length = 24 := by simp [List.length_take]; omega
    have h2 : (B.drop 24).length = 24 * rest.length := by
      simp [List.length_drop]; omega
    rw [hsplit, List.append_assoc]
    have hw := writeBytes_eq A (B.take 24) (B.drop 24 ++ C) rp.marshal
      (HEADER_LENGTH + (SSRC_LENGTH + RECEPTION_REPORT_LENGTH * i))
      (by simp only [HEADER_LENGTH, SSRC_LENGTH, RECEPTION_REPORT_LENGTH]; omega)
      (by rw [h1, repMarshal_length])
    simp only [writeReports, hw]
    have hstep : writeReports (A ++ (rp.marshal ++ (B.drop 24 ++ C))) (i + 1) rest =
        some ((A ++ rp.marshal) ++ (reportsBytes rest ++ C)) := by
      rw [← List.append_assoc]
      exact ih (i + 1) (A ++ rp.marshal) (B.drop 24) C
        (by simp [List.length_append, repMarshal_length]; omega) h2
    rw [hstep]
    simp [reportsBytes, List.append_assoc]

/-! ### Read primitive lemmas -/

lemma readU32_in (b : List Nat) (o : Nat) (h : o + 4 ≤ b.length) :
    readU32 b o = some (b.getD o 0 * 2 ^ 24 + b.getD (o + 1) 0 * 2 ^ 16 +
      b.getD (o + 2) 0 * 2 ^ 8 + b.getD (o + 3) 0) := by
  unfold readU32
  rw [if_pos h]

lemma readU32_at (A R : List Nat) (v o : Nat) (ho : o = A.length) (hv : v < 2 ^ 32) :
    readU32 (A ++ (u32Bytes v ++ R)) o = some v := by
  subst ho
  have hlen : A.length + 4 ≤ (A ++ (u32Bytes v ++ R)).length := by
    simp [List.length_append, u32Bytes, List.length_cons]
  rw [readU32_in _ _ hlen]
  have e0 : (A ++ (u32Bytes v ++ R)).getD A.length 0 = v / 2 ^ 24 % 256 := by
    rw [getD_append_off A _ _ 0 (by omega)]; simp [u32Bytes]
  have e1 : (A ++ (u32Bytes v ++ R)).getD (A.length + 1) 0 = v / 2 ^ 16 % 256 := by
    rw [getD_append_off A _ _ 1 rfl]; simp [u32Bytes]
  have e2 : (A ++ (u32Bytes v ++ R)).getD (A.length + 2) 0 = v / 2 ^ 8 % 256 := by
    rw [getD_append_off A _ _ 2 rfl]; simp [u32Bytes]
  have e3 : (A ++ (u32Bytes v ++ R)).getD (A.length + 3) 0 = v % 256 := by
    rw [getD_append_off A _ _ 3 rfl]; simp [u32Bytes]
  rw [e0, e1, e2, e3]
  congr 1
  omega

lemma readU32s_eq (vs : List Nat) : ∀ (A C : List Nat) (o : Nat), o = A.length →
    (∀ v ∈ vs, v < 2 ^ 32) →
    readU32s (A ++ (u32sBytes vs ++ C)) o vs.length = some vs := by
  induction vs with
  | nil =>
    intro A C o ho hv
    simp [readU32s]
  | cons v vs ih =>
    intro A C o ho hv
    have hv0 : v < 2 ^ 32 := hv v (by simp)
    simp only [u32sBytes, List.append_assoc, List.length_cons]
    have hrec : readU32s (A ++ (u32Bytes v ++ (u32sBytes vs ++ C))) (o + SSRC_LENGTH)
        vs.length = some vs := by
      rw [← List.append_assoc]
      exact ih (A ++ u32Bytes v) C (o + SSRC_LENGTH)
        (by simp [List.length_append, u32Bytes_length, ho, SSRC_LENGTH])
        (fun x hx => hv x (by simp [hx]))
    simp only [readU32s, readU32_at A (u32sBytes vs ++ C) v o ho hv0, hrec]

lemma readU32s_total (n : Nat) : ∀ (b : List Nat) (o : Nat), o + 4 * n ≤ b.length →
    ∃ l, readU32s b o n = some l := by
  induction n with
  | zero => intro b o _; exact ⟨[], rfl⟩
  | succ n ih =>
    intro b o h
    obtain ⟨l, hl⟩ := ih b (o + SSRC_LENGTH) (by simp only [SSRC_LENGTH]; omega)
    have hr := readU32_in b o (by omega)
    exact ⟨(b.getD o 0 * 2 ^ 24 + b.getD (o + 1) 0 * 2 ^ 16 +
        b.getD (o + 2) 0 * 2 ^ 8 + b.getD (o + 3) 0) :: l,
      by simp only [readU32s, hr, hl]⟩

/-! ### Header marshal/unmarshal interplay -/

lemma header_unmarshal_marshal (h : Header) (rest : List Nat) (hc : h.count < 32)
    (hp : h.packet_type < 256) :
    Header.unmarshal (Header.marshal h ++ rest) = .ok
      { padding := h.padding, count := h.count, packet_type := h.packet_type,
        length := h.length % 65536 } := by
  unfold Header.unmarshal Header.marshal
  rw [if_pos (by simp [List.length_append])]
  rw [Nat.mod_eq_of_lt hc, Nat.mod_eq_of_lt hp]
  cases hpad : h.padding with
  | false =>
    simp only [if_neg, Bool.false_eq_true, if_false, Except.ok.injEq, Header.mk.injEq]
    refine ⟨?_, ?_, ?_, ?_⟩
    · simp only [List.cons_append, List.getD_cons_zero, decide_eq_false_iff_not]
      omega
    · simp only [List.cons_append, List.getD_cons_zero]
      omega
    · simp [List.cons_append, List.getD_cons_succ, List.getD_cons_zero]
    · simp only [List.cons_append, List.getD_cons_succ, List.getD_cons_zero]
      omega
  | true =>
    simp only [if_pos, if_true, Except.ok.injEq, Header.mk.injEq]
    refine ⟨?_, ?_, ?_, ?_⟩
    · simp only [List.cons_append, List.getD_cons_zero, decide_eq_true_eq]
      omega
    · simp only [List.cons_append, List.getD_cons_zero]
      omega
    · simp [List.cons_append, List.getD_cons_succ, List.getD_cons_zero]
    · simp only [List.cons_append, List.getD_cons_succ, List.getD_cons_zero]
      omega

/-! ### Closed forms of the marshal routines -/

/-- The padding length used by `Goodbye::len`. -/
def gpad (g : Goodbye) : Nat :=
  get_padding (HEADER_LENGTH + g.sources.length * SSRC_LENGTH + (g.reason.length + 1))

lemma writeHeaderInto_eq (h : Header) (B C : List Nat) (hB : B.length = 4) :
    writeHeaderInto h (B ++ C) = .ok (Header.marshal h ++ C) := by
  unfold writeHeaderInto
  have hw := writeBytes_eq [] B C (Header.marshal h) 0 rfl (by rw [hB, headerMarshal_length])
  simp only [List.nil_append] at hw
  rw [hw]

lemma goodbye_raw1 (g : Goodbye) :
    writeU32List (List.replicate g.len 0) HEADER_LENGTH g.sources =
      some (List.replicate 4 0 ++ (u32sBytes g.sources ++
        List.replicate (g.reason.length + 1 + gpad g) 0)) := by
  have hsplit : List.replicate g.len (0 : Nat) =
      List.replicate 4 0 ++ (List.replicate (4 * g.sources.length) 0 ++
        List.replicate (g.reason.length + 1 + gpad g) 0) := by
    rw [← List.replicate_add, ← List.replicate_add]
    congr 1
    rw [goodbye_len_eq]
    simp only [gpad, HEADER_LENGTH, SSRC_LENGTH]
    omega
  rw [hsplit]
  exact writeU32List_eq g.sources (List.replicate 4 0) _ _ HEADER_LENGTH (by simp [HEADER_LENGTH])
    (by simp)

lemma goodbye_marshal_eq (g : Goodbye) (hs : g.sources.length ≤ 31)
    (hr : g.reason.length ≤ 255) : g.marshal = .ok (goodbyeBytes g) := by
  have hcnt : ¬ (g.sources.length > COUNT_MAX) := by simp only [COUNT_MAX]; omega
  unfold Goodbye.marshal
  simp only [goodbye_raw1 g, if_neg hcnt]
  by_cases hrn : g.reason = []
  · have hwr : g.writeReason (List.replicate 4 0 ++ (u32sBytes g.sources ++
        List.replicate (g.reason.length + 1 + gpad g) 0)) = .ok (List.replicate 4 0 ++
        (u32sBytes g.sources ++ List.replicate (g.reason.length + 1 + gpad g) 0)) := by
      unfold Goodbye.writeReason
      rw [if_neg (by simp [hrn])]
    simp only [hwr]
    rw [writeHeaderInto_eq g.header (List.replicate 4 0) _ (by simp)]
    have hgb : goodbyeBytes g = Header.marshal g.header ++ (u32sBytes g.sources ++
        ([g.reason.length % 256] ++ (g.reason ++ List.replicate (gpad g) 0))) := by
      simp [goodbyeBytes, gpad, List.append_assoc]
    rw [hgb]
    congr 2
    rw [hrn]
    simp only [List.length_nil, Nat.zero_add, Nat.zero_mod, List.nil_append,
      List.singleton_append]
    rw [Nat.add_comm 1 (gpad g), List.replicate_succ]
  · have hR : g.reason.length ≠ 0 := by simpa [List.length_eq_zero] using hrn
    have hwr : g.writeReason (List.replicate 4 0 ++ (u32sBytes g.sources ++
        List.replicate (g.reason.length + 1 + gpad g) 0)) =
        .ok ((List.replicate 4 0 ++ u32sBytes g.sources) ++
          ([g.reason.length % 256] ++ (g.reason ++ List.replicate (gpad g) 0))) := by
      unfold Goodbye.writeReason
      rw [if_pos hrn, if_neg (by simp only [SDES_MAX_OCTET_COUNT]; omega)]
      have hsplit1 : List.replicate (g.reason.length + 1 + gpad g) (0 : Nat) =
          List.replicate 1 0 ++ (List.replicate g.reason.length 0 ++
            List.replicate (gpad g) 0) := by
        rw [← List.replicate_add, ← List.replicate_add]
        congr 1
        omega
      have hw1 : writeBytes (List.replicate 4 0 ++ (u32sBytes g.sources ++
          List.replicate (g.reason.length + 1 + gpad g) 0))
          (HEADER_LENGTH + g.sources.length * SSRC_LENGTH) [g.reason.length % 256] =
          some ((List.replicate 4 0 ++ u32sBytes g.sources) ++
            ([g.reason.length % 256] ++ (List.replicate g.reason.length 0 ++
              List.replicate (gpad g) 0))) := by
        rw [hsplit1, ← List.append_assoc]
        exact writeBytes_eq (List.replicate 4 0 ++ u32sBytes g.sources) (List.replicate 1 0) _ _
          _ (by simp [List.length_append, u32sBytes_length, HEADER_LENGTH, SSRC_LENGTH]; omega)
          (by simp)
      simp only [hw1]
      have hw2 : writeBytes ((List.replicate 4 0 ++ u32sBytes g.sources) ++
          ([g.reason.length % 256] ++ (List.replicate g.reason.length 0 ++
            List.replicate (gpad g) 0)))
          (HEADER_LENGTH + g.sources.length * SSRC_LENGTH + 1) g.reason =
          some (((List.replicate 4 0 ++ u32sBytes g.sources) ++ [g.reason.length % 256]) ++
            (g.reason ++ List.replicate (gpad g) 0)) := by
        rw [← List.append_assoc]
        exact writeBytes_eq ((List.replicate 4 0 ++ u32sBytes g.sources) ++
          [g.reason.length % 256]) (List.replicate g.reason.length 0) _ _ _
          (by simp [List.length_append, u32sBytes_length, HEADER_LENGTH, SSRC_LENGTH]; omega)
          (by simp)
      simp only [hw2]
      simp [List.append_assoc]
    simp only [hwr]
    have hassoc : (List.replicate 4 (0 : Nat) ++ u32sBytes g.sources) ++
        ([g.reason.length % 256] ++ (g.reason ++ List.replicate (gpad g) 0)) =
        List.replicate 4 0 ++ (u32sBytes g.sources ++
          ([g.reason.length % 256] ++ (g.reason ++ List.replicate (gpad g) 0))) :=
      List.append_assoc _ _ _
    rw [hassoc, writeHeaderInto_eq g.header (List.replicate 4 0) _ (by simp)]
    simp [goodbyeBytes, gpad, List.append_assoc]

lemma goodbye_marshal_tooManySources (g : Goodbye) (hs : g.sources.length > 31) :
    g.marshal = .err .tooManySources := by
  unfold Goodbye.marshal
  rw [if_pos (by simp only [COUNT_MAX]; omega)]

lemma goodbye_marshal_reasonTooLong (g : Goodbye) (hs : g.sources.length ≤ 31)
    (hr : g.reason.length > 255) : g.marshal = .err .reasonTooLong := by
  have hcnt : ¬ (g.sources.length > COUNT_MAX) := by simp only [COUNT_MAX]; omega
  unfold Goodbye.marshal
  simp only [goodbye_raw1 g, if_neg hcnt]
  have hwr : g.writeReason (List.replicate 4 0 ++ (u32sBytes g.sources ++
      List.replicate (g.reason.length + 1 + gpad g) 0)) = .err .reasonTooLong := by
    unfold Goodbye.writeReason
    rw [if_pos (by intro hnil; rw [hnil] at hr; simp at hr),
      if_pos (by simp only [SDES_MAX_OCTET_COUNT]; omega)]
  simp only [hwr]

lemma goodbye_marshal_ok_inv (g : Goodbye) (buf : List Nat) (h : g.marshal = .ok buf) :
    g.sources.length ≤ 31 ∧ g.reason.length ≤ 255 ∧ buf = goodbyeBytes g := by
  by_cases hs : g.sources.length ≤ 31
  · by_cases hr : g.reason.length ≤ 255
    · rw [goodbye_marshal_eq g hs hr] at h
      exact ⟨hs, hr, by injection h with h2; exact h2.symm⟩
    · rw [goodbye_marshal_reasonTooLong g hs (by omega)] at h
      cases h
  · rw [goodbye_marshal_tooManySources g (by omega)] at h
    cases h

lemma rr_raw1 (r : ReceiverReport) :
    writeBytes (List.replicate r.len 0) HEADER_LENGTH (u32Bytes r.ssrc) =
      some (List.replicate 4 0 ++ (u32Bytes r.ssrc ++
        List.replicate (24 * r.reports.length + r.profile_extensions.length) 0)) := by
  have hsplit : List.replicate r.len (0 : Nat) =
      List.replicate 4 0 ++ (List.replicate 4 0 ++
        List.replicate (24 * r.reports.length + r.profile_extensions.length) 0) := by
    rw [← List.replicate_add, ← List.replicate_add]
    congr 1
    rw [rr_len_eq]
    omega
  rw [hsplit]
  exact writeBytes_eq (List.replicate 4 0) (List.replicate 4 0) _ _ HEADER_LENGTH
    (by simp [HEADER_LENGTH]) (by simp [u32Bytes_length])

lemma rr_raw2 (r : ReceiverReport) :
    writeReports (List.replicate 4 0 ++ (u32Bytes r.ssrc ++
      List.replicate (24 * r.reports.length + r.profile_extensions.length) 0)) 0 r.reports =
      some ((List.replicate 4 0 ++ u32Bytes r.ssrc) ++
        (reportsBytes r.reports ++ List.replicate r.profile_extensions.length 0)) := by
  have hsplit : List.replicate (24 * r.reports.length + r.profile_extensions.length) (0 : Nat) =
      List.replicate (24 * r.reports.length) 0 ++
        List.replicate r.profile_extensions.length 0 := by
    rw [← List.replicate_add]
  have hassoc : List.replicate 4 (0 : Nat) ++ (u32Bytes r.ssrc ++
      (List.replicate (24 * r.reports.length) 0 ++
        List.replicate r.profile_extensions.length 0)) =
      (List.replicate 4 0 ++ u32Bytes r.ssrc) ++
        (List.replicate (24 * r.reports.length) 0 ++
          List.replicate r.profile_extensions.length 0) :=
    (List.append_assoc _ _ _).symm
  rw [hsplit, hassoc]
  exact writeReports_eq r.reports 0 (List.replicate 4 0 ++ u32Bytes r.ssrc) _ _
    (by simp [List.length_append, u32Bytes_length]) (by simp)

lemma rr_marshal_eq (r : ReceiverReport) (hk : r.reports.length ≤ 31) :
    r.marshal = .ok (rrBytes r) := by
  unfold ReceiverReport.marshal
  simp only [rr_raw1 r, rr_raw2 r, if_neg (show ¬ (r.reports.length > COUNT_MAX) by
    simp only [COUNT_MAX]; omega)]
  simp only [padTo4, List.append_assoc]
  rw [writeHeaderInto_eq r.header (List.replicate 4 0) _ (by simp)]
  simp [rrBytes, List.append_assoc]

lemma rr_marshal_tooManyReports (r : ReceiverReport) (hk : r.reports.length > 31) :
    r.marshal = .err .tooManyReports := by
  unfold ReceiverReport.marshal
  simp only [rr_raw1 r, rr_raw2 r, if_pos (show r.reports.length > COUNT_MAX by
    simp only [COUNT_MAX]; omega)]

lemma rr_marshal_ok_inv (r : ReceiverReport) (buf : List Nat) (h : r.marshal = .ok buf) :
    r.reports.length ≤ 31 ∧ buf = rrBytes r := by
  by_cases hk : r.reports.length ≤ 31
  · rw [rr_marshal_eq r hk] at h
    exact ⟨hk, by injection h with h2; exact h2.symm⟩
  · rw [rr_marshal_tooManyReports r (by omega)] at h
    cases h

/-! ### Decoding the marshalled Goodbye buffer -/

lemma goodbyeBytes_assoc (g : Goodbye) :
    goodbyeBytes g = Header.marshal g.header ++ (u32sBytes g.sources ++
      ([g.reason.length % 256] ++ (g.reason ++ List.replicate (gpad g) 0))) := by
  simp [goodbyeBytes, gpad, List.append_assoc]

lemma goodbye_len_lower (g : Goodbye) :
    g.len = HEADER_LENGTH + g.sources.length * SSRC_LENGTH + (g.reason.length + 1) + gpad g :=
  rfl

lemma goodbye_len_mod4 (g : Goodbye) : g.len % 4 = 0 := by
  rw [goodbye_len_eq]
  exact get_padding_total_mod _

lemma goodbye_unmarshal_goodbyeBytes (init g : Goodbye) (hs : g.sources.length ≤ 31)
    (hr : g.reason.length ≤ 255) (hv : ∀ v ∈ g.sources, v < 2 ^ 32)
    (hu : utf8Valid g.reason = true) :
    Goodbye.unmarshal init (goodbyeBytes g) = .ok g := by
  have hlen : (goodbyeBytes g).length = g.len := goodbyeBytes_length g
  have hlen4 : g.len = HEADER_LENGTH + g.sources.length * SSRC_LENGTH +
      (g.reason.length + 1) + gpad g := goodbye_len_lower g
  have hpad3 : gpad g ≤ 3 := get_padding_le _
  have hhd : Header.unmarshal (goodbyeBytes g) =
      .ok ⟨false, g.sources.length, PT_GOODBYE, g.header.length % 65536⟩ := by
    rw [goodbyeBytes_assoc g, header_unmarshal_marshal g.header _
      (by simp only [Goodbye.header]; omega) (by simp [Goodbye.header, PT_GOODBYE])]
    simp only [Goodbye.header, Except.ok.injEq, Header.mk.injEq, true_and, and_true]
    omega
  have hpadchk : ¬ (get_padding (goodbyeBytes g).length ≠ 0) := by
    rw [hlen, get_padding_eq_zero g.len (goodbye_len_mod4 g)]
    simp
  have hro_ngt : ¬ (HEADER_LENGTH + g.sources.length * SSRC_LENGTH > (goodbyeBytes g).length) := by
    rw [hlen, hlen4]
    omega
  have hreads : readU32s (goodbyeBytes g) HEADER_LENGTH g.sources.length = some g.sources := by
    rw [goodbyeBytes_assoc g]
    exact readU32s_eq g.sources (Header.marshal g.header) _ HEADER_LENGTH
      (by rw [headerMarshal_length]; rfl) hv
  have hro_lt : HEADER_LENGTH + g.sources.length * SSRC_LENGTH < (goodbyeBytes g).length := by
    rw [hlen, hlen4]
    omega
  have hbyte : (goodbyeBytes g).getD (HEADER_LENGTH + g.sources.length * SSRC_LENGTH) 0 =
      g.reason.length := by
    rw [goodbyeBytes_assoc g,
      getD_append_off (Header.marshal g.header) _ _ (g.sources.length * SSRC_LENGTH)
        (by rw [headerMarshal_length]; simp [HEADER_LENGTH]),
      getD_append_off (u32sBytes g.sources) _ _ 0
        (by rw [u32sBytes_length]; simp [SSRC_LENGTH]; omega)]
    simp only [List.cons_append, List.getD_cons_zero]
    omega
  have hre_ngt : ¬ (HEADER_LENGTH + g.sources.length * SSRC_LENGTH + 1 + g.reason.length >
      (goodbyeBytes g).length) := by
    rw [hlen, hlen4]
    omega
  have hsplit3 : goodbyeBytes g =
      (Header.marshal g.header ++ u32sBytes g.sources ++ [g.reason.length % 256]) ++
        (g.reason ++ List.replicate (gpad g) 0) := by
    simp [goodbyeBytes, gpad, List.append_assoc]
  have hdrop : (goodbyeBytes g).drop (HEADER_LENGTH + g.sources.length * SSRC_LENGTH + 1) =
      g.reason ++ List.replicate (gpad g) 0 := by
    rw [hsplit3]
    exact List.drop_left' (by
      simp [List.length_append, headerMarshal_length, u32sBytes_length,
        HEADER_LENGTH, SSRC_LENGTH]
      omega)
  have htake : (g.reason ++ List.replicate (gpad g) 0).take g.reason.length = g.reason :=
    List.take_left' rfl
  unfold Goodbye.unmarshal
  simp only [hhd]
  rw [if_neg (show ¬ (PT_GOODBYE ≠ PT_GOODBYE) by simp)]
  rw [if_neg hpadchk]
  rw [if_neg hro_ngt]
  simp only [hreads]
  rw [if_pos hro_lt, hbyte]
  rw [if_neg hre_ngt]
  rw [hdrop, htake]
  rw [if_pos hu]

/-! ### Outcomes of the ReceiverReport read loop, independent of buffer content -/

lemma rep_unmarshal_short (l : List Nat) (h : l.length < 24) :
    ReceptionReport.unmarshal l = .error .packetTooShort := by
  unfold ReceptionReport.unmarshal
  rw [if_pos (by simp only [RECEPTION_REPORT_LENGTH]; omega)]

lemma rep_unmarshal_ok (l : List Nat) (h : 24 ≤ l.length) :
    ∃ rr, ReceptionReport.unmarshal l = .ok rr := by
  unfold ReceptionReport.unmarshal
  rw [if_neg (by simp only [RECEPTION_REPORT_LENGTH]; omega)]
  exact ⟨_, rfl⟩

lemma rrReadReports_full (n : Nat) : ∀ (b : List Nat) (i : Nat), i ≤ b.length →
    24 * n ≤ b.length - i → ∃ l, rrReadReports b i n = .ok l ∧ l.length = n := by
  induction n with
  | zero => intro b i _ _; exact ⟨[], rfl, rfl⟩
  | succ n ih =>
    intro b i hi h
    have hil : i < b.length := by omega
    obtain ⟨rr, hrr⟩ := rep_unmarshal_ok (b.drop i) (by simp [List.length_drop]; omega)
    obtain ⟨l, hl, hll⟩ := ih b (i + RECEPTION_REPORT_LENGTH)
      (by simp only [RECEPTION_REPORT_LENGTH]; omega)
      (by simp only [RECEPTION_REPORT_LENGTH, List.length_drop] at *; omega)
    refine ⟨rr :: l, ?_, by simp [hll]⟩
    simp only [rrReadReports, if_pos hil, hrr, hl]

lemma rrReadReports_exact (n : Nat) : ∀ (b : List Nat) (i : Nat), i ≤ b.length →
    b.length - i < 24 * n → (b.length - i) % 24 = 0 →
    ∃ l, rrReadReports b i n = .ok l ∧ l.length = (b.length - i) / 24 := by
  induction n with
  | zero => intro b i hi h _; exact absurd h (by omega)
  | succ n ih =>
    intro b i hi h hm
    by_cases hil : i < b.length
    · obtain ⟨rr, hrr⟩ := rep_unmarshal_ok (b.drop i) (by simp [List.length_drop]; omega)
      obtain ⟨l, hl, hll⟩ := ih b (i + RECEPTION_REPORT_LENGTH)
        (by simp only [RECEPTION_REPORT_LENGTH]; omega)
        (by simp only [RECEPTION_REPORT_LENGTH]; omega)
        (by simp only [RECEPTION_REPORT_LENGTH]; omega)
      refine ⟨rr :: l, ?_, ?_⟩
      · simp only [rrReadReports, if_pos hil, hrr, hl]
      · simp only [List.length_cons, hll, RECEPTION_REPORT_LENGTH]
        omega
    · refine ⟨[], ?_, by simp only [List.length_nil]; omega⟩
      simp only [rrReadReports, if_neg hil]

lemma rrReadReports_ragged (n : Nat) : ∀ (b : List Nat) (i : Nat), i ≤ b.length →
    b.length - i < 24 * n → (b.length - i) % 24 ≠ 0 →
    rrReadReports b i n = .error .packetTooShort := by
  induction n with
  | zero => intro b i hi h _; exact absurd h (by omega)
  | succ n ih =>
    intro b i hi h hm
    have hil : i < b.length := by omega
    by_cases hrem : b.length - i < 24
    · have hrr := rep_unmarshal_short (b.drop i) (by simp [List.length_drop]; omega)
      simp only [rrReadReports, if_pos hil, hrr]
    · obtain ⟨rr, hrr⟩ := rep_unmarshal_ok (b.drop i) (by simp [List.length_drop]; omega)
      have hrec := ih b (i + RECEPTION_REPORT_LENGTH)
        (by simp only [RECEPTION_REPORT_LENGTH]; omega)
        (by simp only [RECEPTION_REPORT_LENGTH]; omega)
        (by simp only [RECEPTION_REPORT_LENGTH]; omega)
      simp only [rrReadReports, if_pos hil, hrr, hrec]


/-! ### Decoding truncated prefixes -/

lemma header_unmarshal_bytes (b : List Nat) (h4 : 4 ≤ b.length) :
    Header.unmarshal b = .ok ⟨decide (b.getD 0 0 / 32 % 2 = 1), b.getD 0 0 % 32,
      b.getD 1 0, b.getD 2 0 * 256 + b.getD 3 0⟩ := by
  unfold Header.unmarshal
  rw [if_pos h4]

lemma header_unmarshal_short (b : List Nat) (h4 : b.length < 4) :
    Header.unmarshal b = .error .packetTooShort := by
  unfold Header.unmarshal
  rw [if_neg (by omega)]

lemma goodbyeBytes_byte0 (g : Goodbye) (hs : g.sources.length ≤ 31) :
    (goodbyeBytes g).getD 0 0 = 128 + g.sources.length := by
  rw [goodbyeBytes_assoc g, getD_append_in _ _ 0 (by rw [headerMarshal_length]; omega)]
  simp [Header.marshal, Goodbye.header]
  omega

lemma goodbyeBytes_byte1 (g : Goodbye) : (goodbyeBytes g).getD 1 0 = PT_GOODBYE := by
  rw [goodbyeBytes_assoc g, getD_append_in _ _ 1 (by rw [headerMarshal_length]; omega)]
  simp [Header.marshal, Goodbye.header, PT_GOODBYE]

lemma goodbye_ro_byte (g : Goodbye) :
    (goodbyeBytes g).getD (HEADER_LENGTH + g.sources.length * SSRC_LENGTH) 0 =
      g.reason.length % 256 := by
  rw [goodbyeBytes_assoc g,
    getD_append_off (Header.marshal g.header) _ _ (g.sources.length * SSRC_LENGTH)
      (by rw [headerMarshal_length]; simp [HEADER_LENGTH]),
    getD_append_off (u32sBytes g.sources) _ _ 0
      (by rw [u32sBytes_length]; simp [SSRC_LENGTH]; omega)]
  simp only [List.cons_append, List.getD_cons_zero]

lemma goodbye_unmarshal_take (init g : Goodbye) (p : Nat)
    (hs : g.sources.length ≤ 31) (hr : g.reason.length ≤ 255)
    (hp : p < (goodbyeBytes g).length) :
    Goodbye.unmarshal init ((goodbyeBytes g).take p) = .err .packetTooShort ∨
      ∃ v, Goodbye.unmarshal init ((goodbyeBytes g).take p) = .ok v := by
  have hLlen : (goodbyeBytes g).length = g.len := goodbyeBytes_length g
  have hlen4 : g.len = HEADER_LENGTH + g.sources.length * SSRC_LENGTH +
      (g.reason.length + 1) + gpad g := goodbye_len_lower g
  have hgp3 : gpad g ≤ 3 := get_padding_le _
  have hmod : g.len % 4 = 0 := goodbye_len_mod4 g
  have htlen : ((goodbyeBytes g).take p).length = p := by
    simp only [List.length_take]
    omega
  by_cases hp4 : p < 4
  · left
    have hhd := header_unmarshal_short ((goodbyeBytes g).take p) (by omega)
    unfold Goodbye.unmarshal
    simp only [hhd]
  · have hb0 : ((goodbyeBytes g).take p).getD 0 0 = 128 + g.sources.length := by
      rw [getD_take _ _ _ (by omega), goodbyeBytes_byte0 g hs]
    have hb1 : ((goodbyeBytes g).take p).getD 1 0 = PT_GOODBYE := by
      rw [getD_take _ _ _ (by omega), goodbyeBytes_byte1 g]
    have hhd := header_unmarshal_bytes ((goodbyeBytes g).take p) (by omega)
    rw [hb0, hb1, show (128 + g.sources.length) % 32 = g.sources.length from by omega] at hhd
    unfold Goodbye.unmarshal
    simp only [hhd]
    rw [if_neg (show ¬ (PT_GOODBYE ≠ PT_GOODBYE) by simp)]
    by_cases hp4m : p % 4 = 0
    · rw [if_neg (by rw [htlen]; simp [get_padding_eq_zero p hp4m])]
      by_cases hro : HEADER_LENGTH + g.sources.length * SSRC_LENGTH > p
      · left
        rw [if_pos (by rw [htlen]; exact hro)]
      · obtain ⟨l, hl⟩ := readU32s_total g.sources.length ((goodbyeBytes g).take p)
          HEADER_LENGTH (by rw [htlen]; simp only [HEADER_LENGTH, SSRC_LENGTH] at hro ⊢; omega)
        rw [if_neg (by rw [htlen]; exact hro)]
        simp only [hl]
        by_cases hrolt : HEADER_LENGTH + g.sources.length * SSRC_LENGTH < p
        · left
          rw [if_pos (by rw [htlen]; exact hrolt)]
          have hbro : ((goodbyeBytes g).take p).getD
              (HEADER_LENGTH + g.sources.length * SSRC_LENGTH) 0 = g.reason.length % 256 := by
            rw [getD_take _ _ _ hrolt, goodbye_ro_byte g]
          rw [hbro]
          have hgt : HEADER_LENGTH + g.sources.length * SSRC_LENGTH + 1 +
              g.reason.length % 256 > ((goodbyeBytes g).take p).length := by
            rw [htlen]
            rcases Nat.eq_zero_or_pos g.reason.length with hR0 | hRp
            · exfalso
              have hgp : gpad g = 3 := by
                simp only [gpad, HEADER_LENGTH, SSRC_LENGTH, hR0, get_padding]
                split <;> omega
              simp only [HEADER_LENGTH, SSRC_LENGTH] at hlen4 hrolt
              omega
            · rw [Nat.mod_eq_of_lt (by omega : g.reason.length < 256)]
              simp only [HEADER_LENGTH, SSRC_LENGTH] at hlen4 hrolt ⊢
              omega
          rw [if_pos hgt]
        · right
          rw [if_neg (by rw [htlen]; exact hrolt)]
          exact ⟨_, rfl⟩
    · left
      rw [if_pos (by rw [htlen]; exact get_padding_ne_zero p hp4m)]

lemma rrBytes_assoc (r : ReceiverReport) :
    rrBytes r = Header.marshal r.header ++ (u32Bytes r.ssrc ++ (reportsBytes r.reports ++
      (List.replicate r.profile_extensions.length 0 ++ (r.profile_extensions ++
        List.replicate (get_padding r.profile_extensions.length) 0)))) := by
  simp [rrBytes, List.append_assoc]

lemma rrBytes_byte0 (r : ReceiverReport) (hk : r.reports.length ≤ 31) :
    (rrBytes r).getD 0 0 = 128 + r.reports.length := by
  rw [rrBytes_assoc r, getD_append_in _ _ 0 (by rw [headerMarshal_length]; omega)]
  simp [Header.marshal, ReceiverReport.header]
  omega

lemma rrBytes_byte1 (r : ReceiverReport) :
    (rrBytes r).getD 1 0 = PT_RECEIVER_REPORT := by
  rw [rrBytes_assoc r, getD_append_in _ _ 1 (by rw [headerMarshal_length]; omega)]
  simp [Header.marshal, ReceiverReport.header, PT_RECEIVER_REPORT]

lemma rr_unmarshal_take (r : ReceiverReport) (p : Nat) (hk : r.reports.length ≤ 31)
    (hp : p < (rrBytes r).length) :
    ReceiverReport.unmarshal ReceiverReport.mkDefault ((rrBytes r).take p) =
        .err .packetTooShort ∨
      ReceiverReport.unmarshal ReceiverReport.mkDefault ((rrBytes r).take p) =
        .err .invalidHeader ∨
      ∃ v, ReceiverReport.unmarshal ReceiverReport.mkDefault ((rrBytes r).take p) = .ok v := by
  have htlen : ((rrBytes r).take p).length = p := by
    simp only [List.length_take]
    omega
  by_cases hp8 : p < HEADER_LENGTH + SSRC_LENGTH
  · left
    unfold ReceiverReport.unmarshal
    rw [if_pos (by rw [htlen]; exact hp8)]
  · have hp8' : 8 ≤ p := by simp only [HEADER_LENGTH, SSRC_LENGTH] at hp8; omega
    have hb0 : ((rrBytes r).take p).getD 0 0 = 128 + r.reports.length := by
      rw [getD_take _ _ _ (by omega), rrBytes_byte0 r hk]
    have hb1 : ((rrBytes r).take p).getD 1 0 = PT_RECEIVER_REPORT := by
      rw [getD_take _ _ _ (by omega), rrBytes_byte1 r]
    have hhd := header_unmarshal_bytes ((rrBytes r).take p) (by omega)
    rw [hb0, hb1, show (128 + r.reports.length) % 32 = r.reports.length from by omega] at hhd
    unfold ReceiverReport.unmarshal
    rw [if_neg (by rw [htlen]; exact hp8)]
    simp only [hhd]
    rw [if_neg (show ¬ (PT_RECEIVER_REPORT ≠ PT_RECEIVER_REPORT) by simp)]
    rw [readU32_in _ _ (by rw [htlen]; simp only [RR_SSRC_OFFSET]; omega)]
    simp only [ReceiverReport.mkDefault, List.length_nil, Nat.sub_zero, List.nil_append]
    by_cases hfull : 24 * r.reports.length ≤ p - 8
    · obtain ⟨l, hl, hll⟩ := rrReadReports_full r.reports.length ((rrBytes r).take p)
        RR_REPORT_OFFSET (by rw [htlen]; simp only [RR_REPORT_OFFSET]; omega)
        (by rw [htlen]; simp only [RR_REPORT_OFFSET]; omega)
      right; right
      simp only [hl]
      rw [if_pos (by
        rw [htlen, hll]
        simp only [RR_REPORT_OFFSET, RECEPTION_REPORT_LENGTH]
        omega)]
      rw [if_neg (by rw [hll]; simp)]
      exact ⟨_, rfl⟩
    · by_cases hmod : (p - 8) % 24 = 0
      · obtain ⟨l, hl, hll⟩ := rrReadReports_exact r.reports.length ((rrBytes r).take p)
          RR_REPORT_OFFSET (by rw [htlen]; simp only [RR_REPORT_OFFSET]; omega)
          (by rw [htlen]; simp only [RR_REPORT_OFFSET]; omega)
          (by rw [htlen]; simp only [RR_REPORT_OFFSET]; omega)
        rw [htlen] at hll
        simp only [RR_REPORT_OFFSET] at hll
        right; left
        simp only [hl]
        rw [if_pos (by
          rw [htlen, hll]
          simp only [RR_REPORT_OFFSET, RECEPTION_REPORT_LENGTH]
          have := Nat.div_mul_le_self (p - 8) 24
          omega)]
        rw [if_pos (by
          rw [hll]
          have hdlt : (p - 8) / 24 < r.reports.length := by omega
          omega)]
      · have herr := rrReadReports_ragged r.reports.length ((rrBytes r).take p)
          RR_REPORT_OFFSET (by rw [htlen]; simp only [RR_REPORT_OFFSET]; omega)
          (by rw [htlen]; simp only [RR_REPORT_OFFSET]; omega)
          (by rw [htlen]; simp only [RR_REPORT_OFFSET]; omega)
        left
        simp only [herr]

/-! ### Agreement of decodes on a shared prefix -/

lemma getD_eq_of_take_eq (b1 b2 : List Nat) (m j : Nat) (heq : b1.take m = b2.take m)
    (hj : j < m) : b1.getD j 0 = b2.getD j 0 := by
  rw [← getD_take b1 m j hj, ← getD_take b2 m j hj, heq]

lemma readU32_congr (b1 b2 : List Nat) (o m : Nat) (heq : b1.take m = b2.take m)
    (h1 : o + 4 ≤ b1.length) (h2 : o + 4 ≤ b2.length) (hm : o + 4 ≤ m) :
    readU32 b1 o = readU32 b2 o := by
  rw [readU32_in b1 o h1, readU32_in b2 o h2,
    getD_eq_of_take_eq b1 b2 m o heq (by omega),
    getD_eq_of_take_eq b1 b2 m (o + 1) heq (by omega),
    getD_eq_of_take_eq b1 b2 m (o + 2) heq (by omega),
    getD_eq_of_take_eq b1 b2 m (o + 3) heq (by omega)]

lemma readU32s_congr (n : Nat) : ∀ (b1 b2 : List Nat) (o m : Nat),
    b1.take m = b2.take m → o + 4 * n ≤ m → m ≤ b1.length → m ≤ b2.length →
    readU32s b1 o n = readU32s b2 o n := by
  induction n with
  | zero => intro b1 b2 o m _ _ _ _; rfl
  | succ n ih =>
    intro b1 b2 o m heq hm h1 h2
    have hr := readU32_congr b1 b2 o m heq (by omega) (by omega) (by omega)
    have hrec := ih b1 b2 (o + SSRC_LENGTH) m heq (by simp only [SSRC_LENGTH]; omega) h1 h2
    simp only [readU32s, hr, hrec]

lemma dropTake_congr (b1 b2 : List Nat) (m n k : Nat) (heq : b1.take k = b2.take k)
    (hk : m + n ≤ k) (h1 : k ≤ b1.length) (h2 : k ≤ b2.length) :
    (b1.drop m).take n = (b2.drop m).take n := by
  apply List.ext_getElem?
  intro i
  rw [List.getElem?_take, List.getElem?_take]
  by_cases hi : i < n
  · rw [if_pos hi, if_pos hi, List.getElem?_drop, List.getElem?_drop]
    have e1 : b1[m + i]? = (b1.take k)[m + i]? := by
      rw [List.getElem?_take, if_pos (by omega)]
    have e2 : b2[m + i]? = (b2.take k)[m + i]? := by
      rw [List.getElem?_take, if_pos (by omega)]
    rw [e1, e2, heq]
  · rw [if_neg hi, if_neg hi]

lemma goodbye_unmarshal_ok_inv (init : Goodbye) (b : List Nat) (g : Goodbye)
    (h : Goodbye.unmarshal init b = .ok g) :
    4 ≤ b.length ∧
    readU32s b HEADER_LENGTH (b.getD 0 0 % 32) = some g.sources ∧
    ((HEADER_LENGTH + (b.getD 0 0 % 32) * SSRC_LENGTH < b.length ∧
      g.reason = (b.drop (HEADER_LENGTH + (b.getD 0 0 % 32) * SSRC_LENGTH + 1)).take
        (b.getD (HEADER_LENGTH + (b.getD 0 0 % 32) * SSRC_LENGTH) 0)) ∨
     (HEADER_LENGTH + (b.getD 0 0 % 32) * SSRC_LENGTH = b.length ∧
      g.reason = init.reason)) := by
  by_cases h4 : 4 ≤ b.length
  case neg =>
    unfold Goodbye.unmarshal at h
    rw [header_unmarshal_short b (by omega)] at h
    simp at h
  case pos =>
  unfold Goodbye.unmarshal at h
  rw [header_unmarshal_bytes b h4] at h
  simp only at h
  split at h
  case isTrue => simp at h
  case isFalse hpt =>
  split at h
  case isTrue => simp at h
  case isFalse hpad =>
  split at h
  case isTrue => simp at h
  case isFalse hro =>
  rcases hread : readU32s b HEADER_LENGTH (b.getD 0 0 % 32) with _ | srcs
  · rw [hread] at h
    simp at h
  · rw [hread] at h
    simp only at h
    split at h
    case isTrue hrolt =>
      split at h
      case isTrue => simp at h
      case isFalse hre =>
        split at h
        case isTrue hu =>
          simp only [RRes.ok.injEq] at h
          subst h
          exact ⟨h4, by simpa using hread, Or.inl ⟨hrolt, rfl⟩⟩
        case isFalse => simp at h
    case isFalse hrolt =>
      simp only [RRes.ok.injEq] at h
      subst h
      exact ⟨h4, by simpa using hread, Or.inr ⟨by omega, rfl⟩⟩

/-! ### Claim theorems -/

/-- C1 counterexample: the Goodbye with no sources and an empty reason marshals to an
8-byte packet, and unmarshaling its strict 4-byte prefix succeeds instead of returning a
PacketTooShort or InvalidHeader error. -/
theorem c1_counterexample :
    Goodbye.marshal Goodbye.mkDefault = .ok [128, 203, 0, 1, 0, 0, 0, 0] ∧
    Goodbye.unmarshal Goodbye.mkDefault ([128, 203, 0, 1, 0, 0, 0, 0].take 4) =
      .ok { sources := [], reason := [] } := by
  constructor <;> decide

/-- C1 (amended): unmarshaling any strict prefix of a successfully marshalled Goodbye or
ReceiverReport packet never panics (no out-of-bounds access) and returns either a
PacketTooShort error, an InvalidHeader error (ReceiverReport only), or a successfully
decoded value — never any other outcome. -/
theorem truncated_prefix_decode_safe :
    (∀ (g : Goodbye) (buf : List Nat) (p : Nat), g.marshal = .ok buf → p < buf.length →
      (Goodbye.unmarshal Goodbye.mkDefault (buf.take p) = .err .packetTooShort ∨
        ∃ v, Goodbye.unmarshal Goodbye.mkDefault (buf.take p) = .ok v)) ∧
    (∀ (r : ReceiverReport) (buf : List Nat) (p : Nat), r.marshal = .ok buf →
      p < buf.length →
      (ReceiverReport.unmarshal ReceiverReport.mkDefault (buf.take p) =
          .err .packetTooShort ∨
        ReceiverReport.unmarshal ReceiverReport.mkDefault (buf.take p) =
          .err .invalidHeader ∨
        ∃ v, ReceiverReport.unmarshal ReceiverReport.mkDefault (buf.take p) = .ok v)) := by
  constructor
  · intro g buf p hm hp
    obtain ⟨hs, hr, hb⟩ := goodbye_marshal_ok_inv g buf hm
    subst hb
    exact goodbye_unmarshal_take Goodbye.mkDefault g p hs hr hp
  · intro r buf p hm hp
    obtain ⟨hk, hb⟩ := rr_marshal_ok_inv r buf hm
    subst hb
    exact rr_unmarshal_take r p hk hp

/-- Closed witness for the amended C1 theorem at two concrete truncations. -/
theorem truncated_prefix_decode_safe_witness :
    (Goodbye.marshal { sources := [9], reason := [] } =
      .ok [129, 203, 0, 2, 0, 0, 0, 9, 0, 0, 0, 0]) ∧ 5 < 12 ∧
    (Goodbye.unmarshal Goodbye.mkDefault
        (([129, 203, 0, 2, 0, 0, 0, 9, 0, 0, 0, 0] : List Nat).take 5) =
        .err .packetTooShort ∨
      ∃ v, Goodbye.unmarshal Goodbye.mkDefault
        (([129, 203, 0, 2, 0, 0, 0, 9, 0, 0, 0, 0] : List Nat).take 5) = .ok v) ∧
    (ReceiverReport.marshal ReceiverReport.mkDefault = .ok [128, 201, 0, 1, 0, 0, 0, 0]) ∧
    6 < 8 ∧
    (ReceiverReport.unmarshal ReceiverReport.mkDefault
        (([128, 201, 0, 1, 0, 0, 0, 0] : List Nat).take 6) = .err .packetTooShort ∨
      ReceiverReport.unmarshal ReceiverReport.mkDefault
        (([128, 201, 0, 1, 0, 0, 0, 0] : List Nat).take 6) = .err .invalidHeader ∨
      ∃ v, ReceiverReport.unmarshal ReceiverReport.mkDefault
        (([128, 201, 0, 1, 0, 0, 0, 0] : List Nat).take 6) = .ok v) :=
  ⟨by decide, by decide,
    truncated_prefix_decode_safe.1 { sources := [9], reason := [] } _ 5 (by decide) (by decide),
    by decide, by decide,
    truncated_prefix_decode_safe.2 ReceiverReport.mkDefault _ 6 (by decide) (by decide)⟩

/-- C2: for every Goodbye with at most 31 u32 sources and a valid-UTF-8 reason of at
most 255 bytes, marshal succeeds, and unmarshaling its output into a freshly
default-initialized Goodbye yields a value equal to the original. -/
theorem goodbye_roundtrip (g : Goodbye) (hs : g.sources.length ≤ 31)
    (hv : ∀ v ∈ g.sources, v < 2 ^ 32) (hr : g.reason.length ≤ 255)
    (hu : utf8Valid g.reason = true) :
    ∃ buf, g.marshal = .ok buf ∧ Goodbye.unmarshal Goodbye.mkDefault buf = .ok g :=
  ⟨goodbyeBytes g, goodbye_marshal_eq g hs hr,
    goodbye_unmarshal_goodbyeBytes Goodbye.mkDefault g hs hr hv hu⟩

/-- Closed witness for the C2 theorem at a concrete Goodbye. -/
theorem goodbye_roundtrip_witness :
    (([286331153, 572662306] : List Nat).length ≤ 31) ∧
    (∀ v ∈ ([286331153, 572662306] : List Nat), v < 2 ^ 32) ∧
    (([104, 101, 106] : List Nat).length ≤ 255) ∧
    utf8Valid [104, 101, 106] = true ∧
    (∃ buf, Goodbye.marshal { sources := [286331153, 572662306], reason := [104, 101, 106] } =
        .ok buf ∧
      Goodbye.unmarshal Goodbye.mkDefault buf =
        .ok { sources := [286331153, 572662306], reason := [104, 101, 106] }) :=
  ⟨by decide, by decide, by decide, by decide,
    goodbye_roundtrip { sources := [286331153, 572662306], reason := [104, 101, 106] }
      (by decide) (by decide) (by decide) (by decide)⟩

/-- C3 (code bug, evaluated at the failing input): a ReceiverReport whose
profile_extensions [1,2,3,4] already have length a multiple of 4 marshals, but
unmarshaling the output yields profile_extensions [0,0,0,0,1,2,3,4] — the allocation
reserved room for the extensions and the padded copy was appended after it, so the
round trip does not return the original value. -/
theorem rr_roundtrip_failing :
    ReceiverReport.marshal { ssrc := 0, reports := [], profile_extensions := [1, 2, 3, 4] } =
      .ok [128, 201, 0, 2, 0, 0, 0, 0, 0, 0, 0, 0, 1, 2, 3, 4] ∧
    ReceiverReport.unmarshal ReceiverReport.mkDefault
        [128, 201, 0, 2, 0, 0, 0, 0, 0, 0, 0, 0, 1, 2, 3, 4] =
      .ok { ssrc := 0, reports := [], profile_extensions := [0, 0, 0, 0, 1, 2, 3, 4] } ∧
    ({ ssrc := 0, reports := [], profile_extensions := [0, 0, 0, 0, 1, 2, 3, 4] } :
        ReceiverReport) ≠
      { ssrc := 0, reports := [], profile_extensions := [1, 2, 3, 4] } := by
  refine ⟨by decide, by decide, by decide⟩

/-- C4 (code bug, evaluated at the failing input): marshaling the ReceiverReport with
ssrc 0x01020304, no reports, and profile_extensions [0xAA, 0xBB] produces a 14-byte
buffer whose bytes after the reporter SSRC are [0, 0, 0xAA, 0xBB, 0, 0] — not the
claimed [0xAA, 0xBB, 0, 0] — while the header length field holds 2. -/
theorem rr_extension_tail_failing :
    ReceiverReport.marshal
        { ssrc := 16909060, reports := [], profile_extensions := [170, 187] } =
      .ok [128, 201, 0, 2, 1, 2, 3, 4, 0, 0, 170, 187, 0, 0] ∧
    ([128, 201, 0, 2, 1, 2, 3, 4, 0, 0, 170, 187, 0, 0] : List Nat).length = 14 ∧
    List.drop (HEADER_LENGTH + SSRC_LENGTH)
        [128, 201, 0, 2, 1, 2, 3, 4, 0, 0, 170, 187, 0, 0] = [0, 0, 170, 187, 0, 0] ∧
    ([128, 201, 0, 2, 1, 2, 3, 4, 0, 0, 170, 187, 0, 0] : List Nat).getD 2 0 * 256 +
      ([128, 201, 0, 2, 1, 2, 3, 4, 0, 0, 170, 187, 0, 0] : List Nat).getD 3 0 = 2 := by
  refine ⟨by decide, by decide, by decide, by decide⟩

/-- C5 counterexample: the Goodbye with sources [0x11111111, 0x22222222] and empty
reason does not marshal to a 12-byte buffer — the unconditional reason-length byte plus
32-bit padding make it 16 bytes, with header length field 3 rather than 2. -/
theorem goodbye_scenarioA_counterexample :
    Goodbye.marshal { sources := [286331153, 572662306], reason := [] } =
      .ok [130, 203, 0, 3, 17, 17, 17, 17, 34, 34, 34, 34, 0, 0, 0, 0] ∧
    ([130, 203, 0, 3, 17, 17, 17, 17, 34, 34, 34, 34, 0, 0, 0, 0] : List Nat).length ≠ 12 ∧
    ([130, 203, 0, 3, 17, 17, 17, 17, 34, 34, 34, 34, 0, 0, 0, 0] : List Nat).getD 2 0 * 256 +
      ([130, 203, 0, 3, 17, 17, 17, 17, 34, 34, 34, 34, 0, 0, 0, 0] : List Nat).getD 3 0 ≠ 2 := by
  refine ⟨by decide, by decide, by decide⟩

/-- C5 (amended): that Goodbye marshals to exactly a 16-byte buffer — a 4-byte header
with count 2, packet type 203 and length field 3, the two big-endian source
identifiers, then a zero reason-length byte and three zero padding bytes — and
unmarshaling that buffer reproduces the same Goodbye with an empty reason. -/
theorem goodbye_scenarioA_amended :
    Goodbye.marshal { sources := [286331153, 572662306], reason := [] } =
      .ok [130, 203, 0, 3, 17, 17, 17, 17, 34, 34, 34, 34, 0, 0, 0, 0] ∧
    ([130, 203, 0, 3, 17, 17, 17, 17, 34, 34, 34, 34, 0, 0, 0, 0] : List Nat).length = 16 ∧
    (130 : Nat) % 32 = 2 ∧
    ([130, 203, 0, 3, 17, 17, 17, 17, 34, 34, 34, 34, 0, 0, 0, 0] : List Nat).getD 1 0 =
      PT_GOODBYE ∧
    ([130, 203, 0, 3, 17, 17, 17, 17, 34, 34, 34, 34, 0, 0, 0, 0] : List Nat).getD 2 0 * 256 +
      ([130, 203, 0, 3, 17, 17, 17, 17, 34, 34, 34, 34, 0, 0, 0, 0] : List Nat).getD 3 0 = 3 ∧
    Goodbye.unmarshal Goodbye.mkDefault
        [130, 203, 0, 3, 17, 17, 17, 17, 34, 34, 34, 34, 0, 0, 0, 0] =
      .ok { sources := [286331153, 572662306], reason := [] } := by
  refine ⟨by decide, by decide, by decide, by decide, by decide, by decide⟩

/-- C6 (code bug, evaluated at the failing input): for a ReceiverReport with four bytes
of profile extensions, the marshalled buffer is 16 bytes long but its header length
field holds 2, not 16 / 4 - 1 = 3 — the extensions are appended after an allocation
that already reserved their length, so the written length field no longer matches the
returned buffer. -/
theorem rr_length_field_failing :
    ReceiverReport.marshal { ssrc := 5, reports := [], profile_extensions := [7, 7, 7, 7] } =
      .ok [128, 201, 0, 2, 0, 0, 0, 5, 0, 0, 0, 0, 7, 7, 7, 7] ∧
    ([128, 201, 0, 2, 0, 0, 0, 5, 0, 0, 0, 0, 7, 7, 7, 7] : List Nat).getD 2 0 * 256 +
      ([128, 201, 0, 2, 0, 0, 0, 5, 0, 0, 0, 0, 7, 7, 7, 7] : List Nat).getD 3 0 = 2 ∧
    ([128, 201, 0, 2, 0, 0, 0, 5, 0, 0, 0, 0, 7, 7, 7, 7] : List Nat).length / 4 - 1 = 3 := by
  refine ⟨by decide, by decide, by decide⟩

/-- C7: over-capacity encode requests are rejected, never truncated: exactly 31 sources
marshal successfully while 32 fail with TooManySources; a 255-byte reason (with at most
31 sources) marshals successfully while a 256-byte reason fails with ReasonTooLong; and
a ReceiverReport with more than 31 reports fails with TooManyReports. -/
theorem capacity_limits :
    (∀ g : Goodbye, g.sources.length = 31 → g.reason.length ≤ 255 →
      ∃ buf, g.marshal = .ok buf) ∧
    (∀ g : Goodbye, g.sources.length = 32 → g.marshal = .err .tooManySources) ∧
    (∀ g : Goodbye, g.sources.length ≤ 31 → g.reason.length = 255 →
      ∃ buf, g.marshal = .ok buf) ∧
    (∀ g : Goodbye, g.sources.length ≤ 31 → g.reason.length = 256 →
      g.marshal = .err .reasonTooLong) ∧
    (∀ r : ReceiverReport, r.reports.length > 31 → r.marshal = .err .tooManyReports) := by
  refine ⟨?_, ?_, ?_, ?_, ?_⟩
  · intro g h1 h2
    exact ⟨goodbyeBytes g, goodbye_marshal_eq g (by omega) h2⟩
  · intro g h1
    exact goodbye_marshal_tooManySources g (by omega)
  · intro g h1 h2
    exact ⟨goodbyeBytes g, goodbye_marshal_eq g h1 (by omega)⟩
  · intro g h1 h2
    exact goodbye_marshal_reasonTooLong g h1 (by omega)
  · intro r h1
    exact rr_marshal_tooManyReports r h1

set_option maxRecDepth 10000 in
/-- Closed witness for the C7 theorem at the boundary inputs. -/
theorem capacity_limits_witness :
    ((List.replicate 31 5 : List Nat).length = 31) ∧
    (∃ buf, Goodbye.marshal { sources := List.replicate 31 5, reason := [] } = .ok buf) ∧
    ((List.replicate 32 5 : List Nat).length = 32) ∧
    Goodbye.marshal { sources := List.replicate 32 5, reason := [] } =
      .err .tooManySources ∧
    ((List.replicate 255 97 : List Nat).length = 255) ∧
    (∃ buf, Goodbye.marshal { sources := [], reason := List.replicate 255 97 } = .ok buf) ∧
    ((List.replicate 256 97 : List Nat).length = 256) ∧
    Goodbye.marshal { sources := [], reason := List.replicate 256 97 } =
      .err .reasonTooLong ∧
    ((List.replicate 32
        ({ ssrc := 0, fraction_lost := 0, total_lost := 0, last_sequence_number := 0,
           jitter := 0, last_sr := 0, delay_since_last_sr := 0 } : ReceptionReport)).length
      > 31) ∧
    ReceiverReport.marshal { ssrc := 0, profile_extensions := [],
                             reports := List.replicate 32
                               ({ ssrc := 0, fraction_lost := 0, total_lost := 0,
                                  last_sequence_number := 0, jitter := 0, last_sr := 0,
                                  delay_since_last_sr := 0 } : ReceptionReport) } =
      .err .tooManyReports :=
  ⟨by decide, capacity_limits.1 _ (by decide) (by decide), by decide,
    capacity_limits.2.1 _ (by decide), by decide,
    capacity_limits.2.2.1 _ (by decide) (by decide), by decide,
    capacity_limits.2.2.2.1 _ (by decide) (by decide), by decide,
    capacity_limits.2.2.2.2 _ (by decide)⟩

/-- C8 counterexample: the 4-byte buffer [128, 203, 0, 0] parses successfully through
Header::unmarshal with discriminant 203 (Goodbye), yet the ReceiverReport decoder
returns PacketTooShort — its minimum-length check runs before the packet-type check —
rather than the claimed WrongPacketType. -/
theorem wrong_type_counterexample :
    Header.unmarshal [128, 203, 0, 0] =
      .ok { padding := false, count := 0, packet_type := 203, length := 0 } ∧
    ReceiverReport.unmarshal ReceiverReport.mkDefault [128, 203, 0, 0] =
      .err .packetTooShort ∧
    RtcpError.packetTooShort ≠ RtcpError.wrongPacketType := by
  refine ⟨rfl, by decide, by decide⟩

/-- C8 (amended): any buffer whose header parses (at least 4 bytes) with discriminant
201 makes the Goodbye decoder return WrongPacketType; any buffer of at least 8 bytes
(the ReceiverReport minimum-length check) with discriminant 203 makes the
ReceiverReport decoder return WrongPacketType; a 4-to-7-byte buffer with
discriminant 203 yields PacketTooShort from the ReceiverReport decoder instead. -/
theorem wrong_type_amended :
    (∀ (b : List Nat) (init : Goodbye), 4 ≤ b.length → b.getD 1 0 = PT_RECEIVER_REPORT →
      Goodbye.unmarshal init b = .err .wrongPacketType) ∧
    (∀ (b : List Nat) (init : ReceiverReport), 8 ≤ b.length → b.getD 1 0 = PT_GOODBYE →
      ReceiverReport.unmarshal init b = .err .wrongPacketType) := by
  constructor
  · intro b init h4 hb
    unfold Goodbye.unmarshal
    simp only [header_unmarshal_bytes b h4]
    rw [if_pos (by rw [hb]; decide)]
  · intro b init h8 hb
    unfold ReceiverReport.unmarshal
    rw [if_neg (by simp only [HEADER_LENGTH, SSRC_LENGTH]; omega)]
    simp only [header_unmarshal_bytes b (by omega)]
    rw [if_pos (by rw [hb]; decide)]

/-- Closed witness for the amended C8 theorem at concrete buffers. -/
theorem wrong_type_amended_witness :
    (4 ≤ ([128, 201, 0, 0] : List Nat).length) ∧
    ([128, 201, 0, 0] : List Nat).getD 1 0 = PT_RECEIVER_REPORT ∧
    Goodbye.unmarshal Goodbye.mkDefault [128, 201, 0, 0] = .err .wrongPacketType ∧
    (8 ≤ ([128, 203, 0, 1, 0, 0, 0, 0] : List Nat).length) ∧
    ([128, 203, 0, 1, 0, 0, 0, 0] : List Nat).getD 1 0 = PT_GOODBYE ∧
    ReceiverReport.unmarshal ReceiverReport.mkDefault [128, 203, 0, 1, 0, 0, 0, 0] =
      .err .wrongPacketType :=
  ⟨by decide, by decide, wrong_type_amended.1 _ Goodbye.mkDefault (by decide) (by decide),
    by decide, by decide,
    wrong_type_amended.2 _ ReceiverReport.mkDefault (by decide) (by decide)⟩

/-- C9: for every Goodbye with at most 31 sources and a reason of at most 255 bytes,
every buffer index and slice range computed during marshal stays inside the allocated
output buffer: the embedded marshal — whose writes return the panic outcome on any
out-of-bounds access — returns Ok with a buffer of exactly the allocated length. -/
theorem goodbye_marshal_total (g : Goodbye) (hs : g.sources.length ≤ 31)
    (hr : g.reason.length ≤ 255) :
    ∃ buf, g.marshal = .ok buf ∧ buf.length = g.len :=
  ⟨goodbyeBytes g, goodbye_marshal_eq g hs hr, goodbyeBytes_length g⟩

/-- Closed witness for the C9 theorem at a concrete Goodbye. -/
theorem goodbye_marshal_total_witness :
    (([1, 2, 3] : List Nat).length ≤ 31) ∧ (([120] : List Nat).length ≤ 255) ∧
    (∃ buf, Goodbye.marshal { sources := [1, 2, 3], reason := [120] } = .ok buf ∧
      buf.length = Goodbye.len { sources := [1, 2, 3], reason := [120] }) :=
  ⟨by decide, by decide,
    goodbye_marshal_total { sources := [1, 2, 3], reason := [120] } (by decide) (by decide)⟩

/-- C10: bytes beyond the reason region never influence a Goodbye decode — if two
buffers are both accepted by Goodbye::unmarshal and agree on their first reason_end
bytes (reason_end computed from the shared prefix as header length 4 plus 4 times the
count byte's low 5 bits plus 1 plus the reason-length byte, with that region inside the
first buffer), the decoded values are equal whatever the trailing bytes are. -/
theorem goodbye_decode_ignores_tail (i1 i2 : Goodbye) (b1 b2 : List Nat) (g1 g2 : Goodbye)
    (re : Nat)
    (hre_def : re = HEADER_LENGTH + (b1.getD 0 0 % 32) * SSRC_LENGTH + 1 +
      b1.getD (HEADER_LENGTH + (b1.getD 0 0 % 32) * SSRC_LENGTH) 0)
    (hre1 : re ≤ b1.length)
    (heq : b1.take re = b2.take re)
    (h1 : Goodbye.unmarshal i1 b1 = .ok g1)
    (h2 : Goodbye.unmarshal i2 b2 = .ok g2) :
    g1 = g2 := by
  have hre2 : re ≤ b2.length := by
    have hlen := congrArg List.length heq
    simp only [List.length_take] at hlen
    omega
  have hre5 : HEADER_LENGTH + (b1.getD 0 0 % 32) * SSRC_LENGTH + 1 ≤ re := by
    simp only [HEADER_LENGTH, SSRC_LENGTH] at hre_def ⊢
    omega
  have hb0 : b2.getD 0 0 = b1.getD 0 0 :=
    (getD_eq_of_take_eq b1 b2 re 0 heq (by
      simp only [HEADER_LENGTH, SSRC_LENGTH] at hre_def
      omega)).symm
  obtain ⟨hl1, hread1, hcase1⟩ := goodbye_unmarshal_ok_inv i1 b1 g1 h1
  obtain ⟨hl2, hread2, hcase2⟩ := goodbye_unmarshal_ok_inv i2 b2 g2 h2
  rw [hb0] at hread2 hcase2
  have hsources : g1.sources = g2.sources := by
    have hcongr := readU32s_congr (b1.getD 0 0 % 32) b1 b2 HEADER_LENGTH re heq
      (by simp only [HEADER_LENGTH, SSRC_LENGTH] at hre_def ⊢; omega) hre1 hre2
    rw [hread1, hread2] at hcongr
    injection hcongr
  have hbro : b2.getD (HEADER_LENGTH + (b1.getD 0 0 % 32) * SSRC_LENGTH) 0 =
      b1.getD (HEADER_LENGTH + (b1.getD 0 0 % 32) * SSRC_LENGTH) 0 :=
    (getD_eq_of_take_eq b1 b2 re _ heq (by omega)).symm
  rcases hcase1 with ⟨hlt1, hr1⟩ | ⟨heql1, _⟩
  · rcases hcase2 with ⟨hlt2, hr2⟩ | ⟨heql2, _⟩
    · have hreason : g1.reason = g2.reason := by
        rw [hr1, hr2, hbro]
        exact dropTake_congr b1 b2 (HEADER_LENGTH + (b1.getD 0 0 % 32) * SSRC_LENGTH + 1)
          (b1.getD (HEADER_LENGTH + (b1.getD 0 0 % 32) * SSRC_LENGTH) 0) re heq
          (by omega) hre1 hre2
      cases g1
      cases g2
      simp only [Goodbye.mk.injEq]
      exact ⟨hsources, hreason⟩
    · exfalso
      omega
  · exfalso
    omega

/-- Closed witness for the C10 theorem: two accepted buffers agreeing on the first five
bytes but with different trailing bytes decode to the same Goodbye. -/
theorem goodbye_decode_ignores_tail_witness :
    ((5 : Nat) = HEADER_LENGTH +
      (([128, 203, 0, 1, 0, 0, 0, 0] : List Nat).getD 0 0 % 32) * SSRC_LENGTH + 1 +
      ([128, 203, 0, 1, 0, 0, 0, 0] : List Nat).getD (HEADER_LENGTH +
        (([128, 203, 0, 1, 0, 0, 0, 0] : List Nat).getD 0 0 % 32) * SSRC_LENGTH) 0) ∧
    (5 ≤ ([128, 203, 0, 1, 0, 0, 0, 0] : List Nat).length) ∧
    (([128, 203, 0, 1, 0, 0, 0, 0] : List Nat).take 5 =
      ([128, 203, 0, 1, 0, 9, 9, 9, 1, 2, 3, 255] : List Nat).take 5) ∧
    Goodbye.unmarshal Goodbye.mkDefault [128, 203, 0, 1, 0, 0, 0, 0] =
      .ok { sources := [], reason := [] } ∧
    Goodbye.unmarshal Goodbye.mkDefault [128, 203, 0, 1, 0, 9, 9, 9, 1, 2, 3, 255] =
      .ok { sources := [], reason := [] } ∧
    ({ sources := [], reason := [] } : Goodbye) = { sources := [], reason := [] } :=
  ⟨by decide, by decide, by decide, by decide, by decide,
    goodbye_decode_ignores_tail Goodbye.mkDefault Goodbye.mkDefault
      [128, 203, 0, 1, 0, 0, 0, 0] [128, 203, 0, 1, 0, 9, 9, 9, 1, 2, 3, 255] _ _ 5
      (by decide) (by decide) (by decide) (by decide) (by decide)⟩

end Rtcp
